import Mathlib

/-!
# Verification of the CyberCrime case query & aggregation engine

Shallow embedding of the core logic of `server/storage.ts` and
`server/routes.ts` (case listing with filters and pagination, case
mutation, dashboard statistics), with proofs of the behavioural
properties stated in the specification.

Strings are modelled as lists of character codes (`Str := List Nat`);
`caseDate` is a calendar date record; the stored `decimal(15,2)` amount
is modelled as an exact integer number of cents; timestamps are `Nat`.
-/

namespace CyberCrime

/-- A string, as a list of character codes (ASCII subset suffices here). -/
abbrev Str := List Nat

/-- Character code of the SQL LIKE wildcard `%`. -/
def pctCode : Nat := 37
/-- Character code of the SQL LIKE wildcard `_`. -/
def usCode : Nat := 95
/-- Character code of the SQL LIKE escape character `\`. -/
def escCode : Nat := 92

/-- ASCII lower-casing of one character code, as Postgres `lower()` does
for ASCII: codes 65–90 (`A`–`Z`) map to 97–122 (`a`–`z`), all else fixed. -/
def lowerN (c : Nat) : Nat := if 65 ≤ c ∧ c ≤ 90 then c + 32 else c

/-- Lower-case a whole string. -/
def lowerS (s : Str) : Str := s.map lowerN

/-- `startsWithL needle hay`: `hay` begins with `needle`, character by
character. -/
def startsWithL : Str → Str → Bool
  | [], _ => true
  | _ :: _, [] => false
  | c :: cs, d :: ds => c == d && startsWithL cs ds

/-- `containsL needle hay`: `needle` occurs as a contiguous substring of
`hay`. -/
def containsL (needle : Str) : Str → Bool
  | [] => startsWithL needle []
  | d :: ds => startsWithL needle (d :: ds) || containsL needle ds

/-- Postgres `LIKE` pattern matching (`%` matches any sequence, `_` any
single character, `\` escapes the next pattern character; a pattern
ending in a lone escape character never matches — Postgres raises an
error there, modelled as no match). `likeMatch p s` is true when pattern
`p` matches the whole string `s`. -/
def likeMatch : Str → Str → Bool
  | [], [] => true
  | [], _ :: _ => false
  | 37 :: ps, [] => likeMatch ps []
  | 37 :: ps, c :: t => likeMatch ps (c :: t) || likeMatch (37 :: ps) t
  | 95 :: _, [] => false
  | 95 :: ps, _ :: t => likeMatch ps t
  | 92 :: q :: ps, c :: t => (c == q) && likeMatch ps t
  | 92 :: _, _ => false
  | _ :: _, [] => false
  | p :: ps, c :: t => (c == p) && likeMatch ps t

/-- A string is free of LIKE wildcard and escape characters. -/
def noWild (s : Str) : Bool :=
  s.all fun c => !(c == pctCode || c == usCode || c == escCode)

/-- A calendar date (the `date` column type). -/
structure Date where
  year : Nat
  month : Nat
  day : Nat
deriving DecidableEq, Repr

/-- Date comparison (chronological = lexicographic on year, month, day),
as Postgres compares `date` values. -/
def dateLE (a b : Date) : Bool :=
  a.year < b.year ||
    (a.year == b.year &&
      (a.month < b.month || (a.month == b.month && a.day ≤ b.day)))

/-- A row of the `cyber_cases` table (`CyberCase` in `shared/schema.ts`).
The `decimal(15,2)` stolen amount is an exact integer count of cents. -/
structure CyberCase where
  id : Str
  caseDate : Date
  expedientNumber : Str
  crimeType : Str
  senderAccountData : Str
  victim : Str
  receiverAccountData : Str
  receiverAccountResearch : Option Str
  investigationStatus : Str
  stolenAmount : Int
  observations : Option Str
  createdBy : Str
  createdAt : Nat
  updatedAt : Nat
deriving DecidableEq, Repr

/-! ## Generic insertion sort (stable), used to model SQL `ORDER BY` -/

/-- Insert `a` into `l` before the first element `b` with `le a b`. -/
def insertBy (le : α → α → Bool) (a : α) : List α → List α
  | [] => [a]
  | b :: bs => if le a b then a :: b :: bs else b :: insertBy le a bs

/-- Stable insertion sort by the boolean relation `le`. -/
def sortBy (le : α → α → Bool) : List α → List α
  | [] => []
  | a :: as => insertBy le a (sortBy le as)

/-! ## The case list query (`getCyberCases` in `server/storage.ts`) -/

/-- The raw query parameters of `getCyberCases` (all optional; a `none`
string field stands for an absent or empty query-string value — in the
source the destructuring default is the empty string and every string
filter is guarded by a truthiness test, so the empty string behaves
exactly like an absent field). -/
structure CaseQueryParams where
  page : Option Nat
  limit : Option Nat
  search : Option Str
  crimeType : Option Str
  dateFrom : Option Date
  dateTo : Option Date
deriving Repr

/-- The search condition pushed when `search` is truthy:
`expedientNumber ILIKE %s% OR crimeType ILIKE %s% OR victim ILIKE %s%`.
`ILIKE` is case-insensitive `LIKE`: both pattern and value are
lower-cased before matching. -/
def searchCond (s : Str) (r : CyberCase) : Bool :=
  let pat := lowerS (pctCode :: (s ++ [pctCode]))
  likeMatch pat (lowerS r.expedientNumber) ||
    likeMatch pat (lowerS r.crimeType) ||
    likeMatch pat (lowerS r.victim)

/-- The crime-type condition: exact equality. -/
def crimeTypeCond (t : Str) (r : CyberCase) : Bool := r.crimeType == t

/-- The `caseDate >= dateFrom` condition. -/
def dateFromCond (d : Date) (r : CyberCase) : Bool := dateLE d r.caseDate

/-- The `caseDate <= dateTo` condition. -/
def dateToCond (d : Date) (r : CyberCase) : Bool := dateLE r.caseDate d

/-- Turn an optional string filter into the value actually used: absent
becomes the empty string (the source's destructuring default). -/
def strParam (v : Option Str) : Str := v.getD []

/-- The list of pushed `WHERE` conditions, exactly as `getCyberCases`
builds it: each filter contributes a condition only when truthy. -/
def whereConditions (p : CaseQueryParams) : List (CyberCase → Bool) :=
  (if (strParam p.search).isEmpty then [] else [searchCond (strParam p.search)]) ++
    (if (strParam p.crimeType).isEmpty then [] else [crimeTypeCond (strParam p.crimeType)]) ++
    (match p.dateFrom with
     | none => []
     | some d => [dateFromCond d]) ++
    (match p.dateTo with
     | none => []
     | some d => [dateToCond d])

/-- The combined `WHERE` clause: conjunction of the pushed conditions
(an empty list means no `WHERE` clause, i.e. every row qualifies). -/
def whereClause (p : CaseQueryParams) (r : CyberCase) : Bool :=
  (whereConditions p).all fun c => c r

/-- Newest-created first: the `ORDER BY created_at DESC` relation. -/
def createdDesc (a b : CyberCase) : Bool := b.createdAt ≤ a.createdAt

/-- The result shape of `getCyberCases`. -/
structure CasePage where
  cases : List CyberCase
  total : Nat
deriving DecidableEq, Repr

/-- `getCyberCases`: defaults `page = 1`, `limit = 10`; computes
`offset = (page - 1) * limit`; runs the filtered, ordered, paged select
and, with the same predicate, the total count. -/
def getCyberCases (p : CaseQueryParams) (store : List CyberCase) : CasePage :=
  let page := p.page.getD 1
  let limit := p.limit.getD 10
  let offset := (page - 1) * limit
  { cases := (((sortBy createdDesc (store.filter (whereClause p))).drop offset).take limit)
    total := (store.filter (whereClause p)).length }

/-! ## Case mutation (`updateCyberCase` in `server/storage.ts` and the
`PUT /api/cyber-cases/:id` route in `server/routes.ts`) -/

/-- The validated update payload: `insertCyberCaseSchema.partial()`,
i.e. every insertable column optionally present. `insertCyberCaseSchema`
omits `id`, `createdBy`, `createdAt` and `updatedAt`, so the payload has
no such fields. Nullable columns distinguish "absent" from "set to
null", hence `Option (Option Str)`. -/
structure CasePatch where
  caseDate : Option Date
  expedientNumber : Option Str
  crimeType : Option Str
  senderAccountData : Option Str
  victim : Option Str
  receiverAccountData : Option Str
  receiverAccountResearch : Option (Option Str)
  investigationStatus : Option Str
  stolenAmount : Option Int
  observations : Option (Option Str)
deriving DecidableEq, Repr

/-- A raw request body for the update route, before zod validation: it
may carry values for the server-managed columns as well. -/
structure RawUpdateBody where
  id : Option Str
  createdBy : Option Str
  createdAt : Option Nat
  updatedAt : Option Nat
  caseDate : Option Date
  expedientNumber : Option Str
  crimeType : Option Str
  senderAccountData : Option Str
  victim : Option Str
  receiverAccountData : Option Str
  receiverAccountResearch : Option (Option Str)
  investigationStatus : Option Str
  stolenAmount : Option Int
  observations : Option (Option Str)
deriving DecidableEq, Repr

/-- `insertCyberCaseSchema.partial().parse(req.body)`: zod objects strip
unknown keys, and `id`, `createdBy`, `createdAt`, `updatedAt` are omitted
from the schema, so whatever the body carries for them is dropped. -/
def parseUpdateBody (b : RawUpdateBody) : CasePatch :=
  { caseDate := b.caseDate
    expedientNumber := b.expedientNumber
    crimeType := b.crimeType
    senderAccountData := b.senderAccountData
    victim := b.victim
    receiverAccountData := b.receiverAccountData
    receiverAccountResearch := b.receiverAccountResearch
    investigationStatus := b.investigationStatus
    stolenAmount := b.stolenAmount
    observations := b.observations }

/-- Apply `UPDATE ... SET { ...caseData, updatedAt: now }` to one row:
every column present in the set object is overwritten, every other
column keeps its stored value; `updatedAt` is always set to `now`. -/
def applyPatch (c : CyberCase) (d : CasePatch) (now : Nat) : CyberCase :=
  { id := c.id
    caseDate := d.caseDate.getD c.caseDate
    expedientNumber := d.expedientNumber.getD c.expedientNumber
    crimeType := d.crimeType.getD c.crimeType
    senderAccountData := d.senderAccountData.getD c.senderAccountData
    victim := d.victim.getD c.victim
    receiverAccountData := d.receiverAccountData.getD c.receiverAccountData
    receiverAccountResearch := d.receiverAccountResearch.getD c.receiverAccountResearch
    investigationStatus := d.investigationStatus.getD c.investigationStatus
    stolenAmount := d.stolenAmount.getD c.stolenAmount
    observations := d.observations.getD c.observations
    createdBy := c.createdBy
    createdAt := c.createdAt
    updatedAt := now }

/-- `updateCyberCase`: updates the rows whose `id` matches (the primary
key, so at most one) and destructures the first row of `RETURNING *`;
when no row matches, `RETURNING` is empty and the destructured value is
`undefined` (`none`). Returns the returned row and the new store. -/
def updateCyberCase (store : List CyberCase) (id : Str) (d : CasePatch)
    (userId : Str) (now : Nat) : Option CyberCase × List CyberCase :=
  ((store.find? fun c => c.id == id).map fun c => applyPatch c d now,
    store.map fun c => if c.id == id then applyPatch c d now else c)

/-- The possible responses of the update route. -/
inductive UpdateResponse where
  | okCase (c : CyberCase)
  | okEmpty
  | notFound
  | validationError
deriving DecidableEq, Repr

/-- The `PUT /api/cyber-cases/:id` handler: validates the body, runs the
update and sends the (possibly `undefined`) returned row as JSON —
`res.json(undefined)` is a 200 success with an empty body. -/
def routeUpdateCase (store : List CyberCase) (id : Str) (body : RawUpdateBody)
    (userId : Str) (now : Nat) : UpdateResponse × List CyberCase :=
  let d := parseUpdateBody body
  match updateCyberCase store id d userId now with
  | (some c, store') => (UpdateResponse.okCase c, store')
  | (none, store') => (UpdateResponse.okEmpty, store')

/-! ## Dashboard statistics (`getDashboardStats` in `server/storage.ts`) -/

/-- `'Pendiente'` as character codes. -/
def pendienteStr : Str := [80, 101, 110, 100, 105, 101, 110, 116, 101]
/-- `'En proceso'` as character codes. -/
def enProcesoStr : Str := [69, 110, 32, 112, 114, 111, 99, 101, 115, 111]
/-- `'Completado'` as character codes. -/
def completadoStr : Str := [67, 111, 109, 112, 108, 101, 116, 97, 100, 111]

/-- `investigationStatus IN ('Pendiente', 'En proceso')`. -/
def isActiveCase (r : CyberCase) : Bool :=
  r.investigationStatus == pendienteStr || r.investigationStatus == enProcesoStr

/-- `investigationStatus = 'Completado'`. -/
def isResolvedCase (r : CyberCase) : Bool :=
  r.investigationStatus == completadoStr

/-- `EXTRACT(YEAR FROM case_date) = EXTRACT(YEAR FROM CURRENT_DATE)`;
the current year is passed in explicitly. -/
def inCurrentYear (year : Nat) (r : CyberCase) : Bool :=
  r.caseDate.year == year

/-- The rows of the monthly `GROUP BY` query: one `(month, count)` row
per month value present among the current-year records, ordered by
month ascending. -/
def monthRows (year : Nat) (store : List CyberCase) : List (Nat × Nat) :=
  let inYear := store.filter (inCurrentYear year)
  (sortBy (fun a b => a ≤ b) (inYear.map fun r => r.caseDate.month).dedup).map
    fun m => (m, (inYear.filter fun r => r.caseDate.month == m).length)

/-- `Array(12).fill(0)` then `monthlyData[month - 1] = count` for each
grouped row. -/
def fillMonthly (rows : List (Nat × Nat)) : List Nat :=
  rows.foldl (fun arr mc => arr.set (mc.1 - 1) mc.2) (List.replicate 12 0)

/-- The rows of the crime-type `GROUP BY` query ordered by
`count() DESC` (the query has no secondary sort key, so the order among
equal counts is whatever the store produces; the model groups in store
order and sorts stably by count). -/
def crimeTypeRows (store : List CyberCase) : List (Str × Nat) :=
  sortBy (fun a b => b.2 ≤ a.2)
    (((store.map fun r => r.crimeType).dedup).map
      fun t => (t, (store.filter fun r => r.crimeType == t).length))

/-- The result shape of `getDashboardStats`. -/
structure DashboardStats where
  totalCases : Nat
  totalAmount : Int
  activeCases : Nat
  resolvedCases : Nat
  monthlyCases : List Nat
  crimeTypeStats : List (Str × Nat)
deriving DecidableEq, Repr

/-- `getDashboardStats`: total count, `COALESCE(SUM(stolen_amount), 0)`,
active and resolved counts, the zero-filled 12-month histogram of
current-year cases, and the per-crime-type counts. The `userId`
parameter is accepted but never used by the computation. -/
def getDashboardStats (userId : Str) (year : Nat)
    (store : List CyberCase) : DashboardStats :=
  { totalCases := store.length
    totalAmount := (store.map fun r => r.stolenAmount).sum
    activeCases := (store.filter isActiveCase).length
    resolvedCases := (store.filter isResolvedCase).length
    monthlyCases := fillMonthly (monthRows year store)
    crimeTypeStats := crimeTypeRows store }

/-! ## Spec-side definitions (used to compare code behaviour with the
specification's wording) -/

/-- The specification's search notion: `needle` is a case-insensitive
substring of `hay`. -/
def containsCI (needle hay : Str) : Bool :=
  containsL (lowerS needle) (lowerS hay)

/-- The specification's search predicate: case-insensitive substring of
at least one of `expedientNumber`, `crimeType`, `victim`. -/
def specSearchMatch (s : Str) (r : CyberCase) : Bool :=
  containsCI s r.expedientNumber || containsCI s r.crimeType ||
    containsCI s r.victim

/-- Query parameters with every filter absent. -/
def emptyQuery : CaseQueryParams := ⟨none, none, none, none, none, none⟩

/-- Keep only the `search` filter of `p`. -/
def onlySearch (p : CaseQueryParams) : CaseQueryParams :=
  ⟨none, none, p.search, none, none, none⟩

/-- Keep only the `crimeType` filter of `p`. -/
def onlyCrimeType (p : CaseQueryParams) : CaseQueryParams :=
  ⟨none, none, none, p.crimeType, none, none⟩

/-- Keep only the `dateFrom` filter of `p`. -/
def onlyDateFrom (p : CaseQueryParams) : CaseQueryParams :=
  ⟨none, none, none, none, p.dateFrom, none⟩

/-- Keep only the `dateTo` filter of `p`. -/
def onlyDateTo (p : CaseQueryParams) : CaseQueryParams :=
  ⟨none, none, none, none, none, p.dateTo⟩

/-- `totalPages` as the specification defines it: `ceil(total / limit)`. -/
def totalPages (total limit : Nat) : Nat := (total + limit - 1) / limit

/-- Strict lexicographic order on strings (used to state the
specification's "ties broken by type name"). -/
def lexLtS : Str → Str → Bool
  | [], [] => false
  | [], _ :: _ => true
  | _ :: _, [] => false
  | a :: as, b :: bs => a < b || (a == b && lexLtS as bs)

/-- The ordering the specification claims for `crimeTypeStats`: count
descending, ties broken by type name ascending. -/
def specStatsOrder (a b : Str × Nat) : Prop :=
  b.2 < a.2 ∨ (a.2 = b.2 ∧ lexLtS a.1 b.1 = true)

instance (a b : Str × Nat) : Decidable (specStatsOrder a b) :=
  inferInstanceAs (Decidable (_ ∨ _))

/-! ## Concrete sample data (used to instantiate universally quantified
theorems and to exhibit counterexamples) -/

/-- A sample stored case: `Pendiente`, dated 2026-01-15. -/
def sampleCase : CyberCase :=
  { id := [49]
    caseDate := ⟨2026, 1, 15⟩
    expedientNumber := [69, 49]
    crimeType := [80]
    senderAccountData := [115]
    victim := [118]
    receiverAccountData := [114]
    receiverAccountResearch := none
    investigationStatus := pendienteStr
    stolenAmount := 100
    observations := none
    createdBy := [117]
    createdAt := 1
    updatedAt := 1 }

/-- A second sample case: `Completado`, dated 2026-03-02, created later. -/
def sampleCase2 : CyberCase :=
  { sampleCase with
      id := [50]
      expedientNumber := [69, 50]
      caseDate := ⟨2026, 3, 2⟩
      crimeType := [97]
      investigationStatus := completadoStr
      stolenAmount := 250
      createdAt := 2
      updatedAt := 2 }

/-- Page 5 of size 1 with no filters. -/
def pageFiveQuery : CaseQueryParams := ⟨some 5, some 1, none, none, none, none⟩

/-- A record whose `victim` field is the text `axb` (codes 97, 120, 98)
and whose other searchable fields avoid the letters of the needle. -/
def wildcardVictimCase : CyberCase :=
  { sampleCase with
      id := [51]
      expedientNumber := [101]
      crimeType := [102]
      victim := [97, 120, 98] }

/-- Crime type `a` (code 97), created after `tieCaseB`. -/
def tieCaseA : CyberCase :=
  { sampleCase with id := [52], expedientNumber := [69, 51], crimeType := [97], createdAt := 4 }

/-- Crime type `b` (code 98), created before `tieCaseA` and listed first
in the store. -/
def tieCaseB : CyberCase :=
  { sampleCase with id := [53], expedientNumber := [69, 52], crimeType := [98], createdAt := 3 }

/-- An update body that supplies a new `victim` and also attempts to set
the server-managed `id`, `createdBy`, `createdAt` and `updatedAt`. -/
def sneakyBody : RawUpdateBody :=
  { id := some [120]
    createdBy := some [121]
    createdAt := some 99
    updatedAt := some 98
    caseDate := none
    expedientNumber := none
    crimeType := none
    senderAccountData := none
    victim := some [110, 118]
    receiverAccountData := none
    receiverAccountResearch := none
    investigationStatus := none
    stolenAmount := none
    observations := none }

/-- Page 1 with `limit = 0` and no filters. -/
def limitZeroQuery : CaseQueryParams := ⟨some 1, some 0, none, none, none, none⟩

/-- Page 1 with `limit = 1` and no filters. -/
def limitOneQuery : CaseQueryParams := ⟨some 1, some 1, none, none, none, none⟩

/-! ## Helper lemmas -/

theorem natBeq_comm (a b : Nat) : (a == b) = (b == a) := by
  by_cases h : a = b
  · simp [h]
  · have h' : b ≠ a := fun e => h e.symm
    simp [h, h']

/-- The pattern `%` matches every string. -/
theorem likeMatch_pct_nil : ∀ s : Str, likeMatch [37] s = true
  | [] => by simp [likeMatch]
  | _ :: t => by simp [likeMatch, likeMatch_pct_nil t]

/-- A wildcard-free pattern followed by `%` matches exactly the strings
that start with the literal text. -/
theorem likeMatch_lit_pct (cs : Str) (hw : noWild cs = true) :
    ∀ s : Str, likeMatch (cs ++ [37]) s = startsWithL cs s := by
  induction cs with
  | nil =>
    intro s
    simp [likeMatch_pct_nil, startsWithL]
  | cons c cs ih =>
    have hc := List.all_eq_true.1 hw c (by simp)
    simp only [pctCode, usCode, escCode, Bool.not_eq_true', Bool.or_eq_false_iff,
      beq_eq_false_iff_ne, ne_eq] at hc
    obtain ⟨⟨h37, h95⟩, h92⟩ := hc
    have hw' : noWild cs = true := by
      apply List.all_eq_true.2
      intro x hx
      exact List.all_eq_true.1 hw x (by simp [hx])
    intro s
    cases s with
    | nil =>
      simp only [List.cons_append]
      simp [likeMatch, startsWithL, h37, h95, h92]
    | cons d t =>
      simp only [List.cons_append]
      simp [likeMatch, startsWithL, h37, h95, h92, ih hw' t, natBeq_comm d c]

/-- For a wildcard-free needle, the LIKE pattern `%needle%` matches
exactly the strings containing the needle as a substring. -/
theorem likeMatch_pct_lit_pct (cs : Str) (hw : noWild cs = true) :
    ∀ s : Str, likeMatch (37 :: (cs ++ [37])) s = containsL cs s := by
  intro s
  induction s with
  | nil => simp [likeMatch, containsL, likeMatch_lit_pct cs hw]
  | cons d t ih =>
    simp only [likeMatch, likeMatch_lit_pct cs hw]
    rw [ih]
    simp [containsL]

/-- Lower-casing never produces a wildcard or escape character from a
non-wildcard character. -/
theorem lowerN_not_wild {c : Nat} (h37 : c ≠ 37) (h95 : c ≠ 95) (h92 : c ≠ 92) :
    lowerN c ≠ 37 ∧ lowerN c ≠ 95 ∧ lowerN c ≠ 92 := by
  unfold lowerN
  split <;> omega

/-- A wildcard-free string stays wildcard-free after lower-casing. -/
theorem noWild_lowerS {s : Str} (hw : noWild s = true) :
    noWild (lowerS s) = true := by
  apply List.all_eq_true.2
  intro x hx
  rcases List.mem_map.1 hx with ⟨c, hc, rfl⟩
  have h := List.all_eq_true.1 hw c hc
  simp only [pctCode, usCode, escCode, Bool.not_eq_true', Bool.or_eq_false_iff,
    beq_eq_false_iff_ne, ne_eq] at h
  obtain ⟨⟨h37, h95⟩, h92⟩ := h
  obtain ⟨g37, g95, g92⟩ := lowerN_not_wild h37 h95 h92
  simp [pctCode, usCode, escCode, g37, g95, g92]

/-- `insertBy` produces a permutation of consing. -/
theorem insertBy_perm (le : α → α → Bool) (a : α) :
    ∀ l : List α, List.Perm (insertBy le a l) (a :: l)
  | [] => List.Perm.refl _
  | b :: bs => by
    unfold insertBy
    split
    · exact List.Perm.refl _
    · exact ((insertBy_perm le a bs).cons b).trans (List.Perm.swap a b bs)

/-- `sortBy` permutes its input. -/
theorem sortBy_perm (le : α → α → Bool) :
    ∀ l : List α, List.Perm (sortBy le l) l
  | [] => List.Perm.refl _
  | a :: as => (insertBy_perm le a (sortBy le as)).trans ((sortBy_perm le as).cons a)

/-- Inserting into a `le`-sorted list keeps it sorted, for a total and
transitive `le`. -/
theorem pairwise_insertBy (le : α → α → Bool)
    (htot : ∀ x y, le x y = true ∨ le y x = true)
    (htrans : ∀ x y z, le x y = true → le y z = true → le x z = true) (a : α) :
    ∀ l : List α, l.Pairwise (fun x y => le x y = true) →
      (insertBy le a l).Pairwise (fun x y => le x y = true)
  | [], _ => by simp [insertBy]
  | b :: bs, h => by
    rcases List.pairwise_cons.1 h with ⟨hb, hbs⟩
    unfold insertBy
    split
    case isTrue hab =>
      refine List.pairwise_cons.2 ⟨?_, h⟩
      intro x hx
      rcases List.mem_cons.1 hx with rfl | hx
      · exact hab
      · exact htrans a b x hab (hb x hx)
    case isFalse hab =>
      refine List.pairwise_cons.2 ⟨?_, pairwise_insertBy le htot htrans a bs hbs⟩
      intro x hx
      rcases List.mem_cons.1 ((insertBy_perm le a bs).mem_iff.1 hx) with rfl | hx
      · rcases htot x b with hxb | hbx
        · exact absurd hxb hab
        · exact hbx
      · exact hb x hx

/-- `sortBy` sorts, for a total and transitive `le`. -/
theorem pairwise_sortBy (le : α → α → Bool)
    (htot : ∀ x y, le x y = true ∨ le y x = true)
    (htrans : ∀ x y z, le x y = true → le y z = true → le x z = true) :
    ∀ l : List α, (sortBy le l).Pairwise (fun x y => le x y = true)
  | [] => List.Pairwise.nil
  | a :: as =>
    pairwise_insertBy le htot htrans a _ (pairwise_sortBy le htot htrans as)

/-- The combined `WHERE` clause is the conjunction of the four
individually-supplied constraints. -/
theorem whereClause_decompose (p : CaseQueryParams) (r : CyberCase) :
    whereClause p r
      = (whereClause (onlySearch p) r &&
          (whereClause (onlyCrimeType p) r &&
            (whereClause (onlyDateFrom p) r && whereClause (onlyDateTo p) r))) := by
  rcases p with ⟨pg, lm, s, ct, df, dt⟩
  rcases s with _ | s <;> rcases ct with _ | ct <;>
    rcases df with _ | df <;> rcases dt with _ | dt <;>
      simp [whereClause, whereConditions, onlySearch, onlyCrimeType, onlyDateFrom,
        onlyDateTo, strParam, List.all_append] <;>
        cases hs : s.isEmpty <;> cases hct : ct.isEmpty <;> simp [hs, hct, Bool.and_assoc]

/-- An absent filter set pushes no condition: every record qualifies. -/
theorem whereClause_empty (r : CyberCase) : whereClause emptyQuery r = true := by
  simp [whereClause, whereConditions, emptyQuery, strParam]

/-- C1: the records matched by `listCases` are exactly the intersection
of the match sets of the individually supplied filter predicates
(logical AND); an absent or empty-string `search`/`crimeType` filter
contributes no constraint, and the empty filter set matches every
record. -/
theorem listCases_and_composition (p : CaseQueryParams) (store : List CyberCase) :
    store.filter (whereClause p)
        = (((store.filter (whereClause (onlySearch p))).filter
            (whereClause (onlyCrimeType p))).filter
            (whereClause (onlyDateFrom p))).filter (whereClause (onlyDateTo p))
      ∧ (∀ r, whereClause { p with search := some [] } r
            = whereClause { p with search := none } r)
      ∧ (∀ r, whereClause { p with crimeType := some [] } r
            = whereClause { p with crimeType := none } r)
      ∧ store.filter (whereClause emptyQuery) = store := by
  refine ⟨?_, ?_, ?_, ?_⟩
  · induction store with
    | nil => simp
    | cons a l ih =>
      simp only [List.filter_cons, whereClause_decompose p a]
      cases h1 : whereClause (onlySearch p) a <;>
        cases h2 : whereClause (onlyCrimeType p) a <;>
          cases h3 : whereClause (onlyDateFrom p) a <;>
            cases h4 : whereClause (onlyDateTo p) a <;>
              simp [h1, h2, h3, h4, ih]
  · intro r
    rcases p with ⟨pg, lm, s, ct, df, dt⟩
    simp [whereClause, whereConditions, strParam]
  · intro r
    rcases p with ⟨pg, lm, s, ct, df, dt⟩
    simp [whereClause, whereConditions, strParam]
  · have h : ∀ r ∈ store, whereClause emptyQuery r = true := fun r _ => whereClause_empty r
    exact List.filter_eq_self.2 h

/-- C2: `listCases` returns the exact count of matching records as
`total` (independent of `page`/`limit`), never more than `limit`
records, and a page beyond `totalPages` yields an empty `records` array
with the correct `total`, not an error. -/
theorem listCases_pagination (q : CaseQueryParams) (store : List CyberCase)
    (page limit : Nat) (hpg : q.page = some page) (hlim : q.limit = some limit)
    (hpage : 1 ≤ page) (hlimit : 1 ≤ limit) :
    (getCyberCases q store).total = (store.filter (whereClause q)).length
      ∧ (getCyberCases q store).cases.length ≤ limit
      ∧ (totalPages (getCyberCases q store).total limit < page →
          (getCyberCases q store).cases = []) := by
  refine ⟨rfl, ?_, ?_⟩
  · simp [getCyberCases, hpg, hlim, List.length_take]
  · intro hover
    simp only [getCyberCases, hpg, hlim, Option.getD_some] at hover ⊢
    set t := (store.filter (whereClause q)).length with ht
    have hlen : (sortBy createdDesc (store.filter (whereClause q))).length = t :=
      (sortBy_perm createdDesc _).length_eq
    have hkey : t ≤ limit * totalPages t limit := by
      have h := le_smul_ceilDiv (a := limit) (b := t) (by omega)
      simpa [smul_eq_mul, Nat.ceilDiv_eq_add_pred_div, totalPages] using h
    have h2 : totalPages t limit ≤ page - 1 := by omega
    have h3 : t ≤ (page - 1) * limit :=
      le_trans hkey (by rw [Nat.mul_comm]; exact Nat.mul_le_mul_right _ h2)
    have hdrop : (sortBy createdDesc (store.filter (whereClause q))).drop
        ((page - 1) * limit) = [] :=
      List.drop_eq_nil_of_le (by rw [hlen]; exact h3)
    rw [hdrop]
    simp

theorem listCases_pagination_witness :
    pageFiveQuery.page = some 5 ∧ pageFiveQuery.limit = some 1 ∧ 1 ≤ 5 ∧ 1 ≤ 1 ∧
      ((getCyberCases pageFiveQuery [sampleCase, sampleCase2]).total
          = ([sampleCase, sampleCase2].filter (whereClause pageFiveQuery)).length
        ∧ (getCyberCases pageFiveQuery [sampleCase, sampleCase2]).cases.length ≤ 1
        ∧ (totalPages (getCyberCases pageFiveQuery [sampleCase, sampleCase2]).total 1 < 5 →
            (getCyberCases pageFiveQuery [sampleCase, sampleCase2]).cases = [])) :=
  ⟨rfl, rfl, by decide, by decide,
    listCases_pagination pageFiveQuery [sampleCase, sampleCase2] 5 1 rfl rfl
      (by decide) (by decide)⟩

/-- C3 (amended): the search predicate applies the SQL `ILIKE` pattern
`%search%` to `expedientNumber`, `crimeType` and `victim` (logical OR
across exactly these three fields); when the search string contains no
SQL wildcard or escape character (`%`, `_`, `\`), this coincides with
case-insensitive substring matching, as the specification states. -/
theorem searchCond_substring (s : Str) (r : CyberCase) (hne : s ≠ [])
    (hw : noWild s = true) : searchCond s r = specSearchMatch s r := by
  have hw' := noWild_lowerS hw
  have hpat : lowerS (pctCode :: (s ++ [pctCode])) = 37 :: (lowerS s ++ [37]) := by
    simp [lowerS, pctCode, lowerN]
  simp only [searchCond, specSearchMatch, containsCI, hpat,
    likeMatch_pct_lit_pct (lowerS s) hw']

theorem searchCond_substring_witness :
    ([97] : Str) ≠ [] ∧ noWild [97] = true ∧
      searchCond [97] sampleCase = specSearchMatch [97] sampleCase :=
  ⟨by decide, by decide, searchCond_substring [97] sampleCase (by decide) (by decide)⟩

/-- C3 counterexample: the search string `a_b` (codes 97, 95, 98) is not
a case-insensitive substring of any searchable field of
`wildcardVictimCase` (victim `axb`), yet the record matches the search
predicate, because `_` is an SQL wildcard matching the `x`. -/
theorem searchCond_substring_cex :
    searchCond [97, 95, 98] wildcardVictimCase = true
      ∧ specSearchMatch [97, 95, 98] wildcardVictimCase = false := by
  constructor
  · simp [searchCond, wildcardVictimCase, sampleCase, lowerS, lowerN, pctCode, likeMatch]
  · decide

theorem fill_length (rows : List (Nat × Nat)) :
    ∀ arr : List Nat,
      (rows.foldl (fun a mc => a.set (mc.1 - 1) mc.2) arr).length = arr.length := by
  induction rows with
  | nil => intro arr; rfl
  | cons mc rest ih =>
    intro arr
    simp only [List.foldl_cons]
    rw [ih]
    exact List.length_set ..

theorem lookup_eq_none {l : List (Nat × Nat)} {k : Nat}
    (h : k ∉ l.map Prod.fst) : l.lookup k = none := by
  induction l with
  | nil => rfl
  | cons p rest ih =>
    simp only [List.map_cons, List.mem_cons, not_or] at h
    obtain ⟨h1, h2⟩ := h
    rcases p with ⟨m, c⟩
    simp only [List.lookup_cons]
    have : (k == m) = false := by simpa using h1
    simp [this, ih h2]

theorem lookup_map_self (f : Nat → Nat) (k : Nat) :
    ∀ ms : List Nat,
      (ms.map fun m => (m, f m)).lookup k
        = if k ∈ ms then some (f k) else none := by
  intro ms
  induction ms with
  | nil => simp
  | cons m rest ih =>
    simp only [List.map_cons, List.lookup_cons]
    by_cases h : k = m
    · subst h; simp
    · have : (k == m) = false := by simpa using h
      simp [this, ih, h]

theorem fill_getElem (rows : List (Nat × Nat)) :
    ∀ (arr : List Nat) (i : Nat) (hi : i < arr.length),
      (∀ p ∈ rows, 1 ≤ p.1 ∧ p.1 ≤ arr.length) → (rows.map Prod.fst).Nodup →
      (rows.foldl (fun a mc => a.set (mc.1 - 1) mc.2) arr)[i]?
        = some ((rows.lookup (i + 1)).getD (arr.get ⟨i, hi⟩)) := by
  induction rows with
  | nil =>
    intro arr i hi _ _
    simp [List.getElem?_eq_getElem hi]
  | cons mc rest ih =>
    intro arr i hi hbound hnodup
    rcases mc with ⟨m, c⟩
    simp only [List.foldl_cons]
    have hm := hbound (m, c) (by simp)
    have hi' : i < (arr.set (m - 1) c).length := by
      rw [List.length_set]; exact hi
    have hbound' : ∀ p ∈ rest, 1 ≤ p.1 ∧ p.1 ≤ (arr.set (m - 1) c).length := by
      intro p hp
      rw [List.length_set]
      exact hbound p (by simp [hp])
    have hnodup' : (rest.map Prod.fst).Nodup := by
      simp only [List.map_cons] at hnodup
      exact (List.nodup_cons.1 hnodup).2
    rw [ih (arr.set (m - 1) c) i hi' hbound' hnodup']
    by_cases h : m = i + 1
    · subst h
      have hnotin : (i + 1) ∉ rest.map Prod.fst := by
        simp only [List.map_cons] at hnodup
        exact (List.nodup_cons.1 hnodup).1
      rw [lookup_eq_none hnotin]
      have : (i + 1 == i + 1) = true := by simp
      simp only [List.lookup_cons, this, Option.getD_none, Option.getD_some]
      congr 1
      have hset : (arr.set (i + 1 - 1) c).get ⟨i, hi'⟩ = c := by
        show (arr.set i c).get ⟨i, hi'⟩ = c
        simp [List.get_eq_getElem]
      rw [hset]
    · have hne : (i + 1 == m) = false := by
        simpa using fun e => h e.symm
      simp only [List.lookup_cons, hne]
      congr 1
      have : (arr.set (m - 1) c).get ⟨i, hi'⟩ = arr.get ⟨i, hi⟩ := by
        simp only [List.get_eq_getElem]
        apply List.getElem_set_ne
        omega
      rw [this]

/-- The filled monthly histogram is pointwise the per-month count of
current-year records. -/
theorem monthlyCases_eq_map (year : Nat) (store : List CyberCase)
    (hval : ∀ r ∈ store, 1 ≤ r.caseDate.month ∧ r.caseDate.month ≤ 12) :
    fillMonthly (monthRows year store)
      = (List.range 12).map fun i =>
          (store.filter fun r => inCurrentYear year r && r.caseDate.month == i + 1).length := by
  have hfilter : ∀ m : Nat,
      ((store.filter (inCurrentYear year)).filter fun r => r.caseDate.month == m)
        = store.filter fun r => inCurrentYear year r && r.caseDate.month == m := by
    intro m
    rw [List.filter_filter]
    apply List.filter_congr
    intro r _
    exact Bool.and_comm ..
  set inYear := store.filter (inCurrentYear year) with hinYear
  set ms := sortBy (fun a b => a ≤ b) ((inYear.map fun r => r.caseDate.month).dedup) with hms
  have hperm := sortBy_perm (fun a b : Nat => a ≤ b)
    ((inYear.map fun r => r.caseDate.month).dedup)
  have hms_mem : ∀ m : Nat, m ∈ ms ↔ m ∈ inYear.map fun r => r.caseDate.month := by
    intro m
    rw [hms, hperm.mem_iff]
    exact List.mem_dedup
  have hms_nodup : ms.Nodup := hperm.nodup_iff.2 (List.nodup_dedup _)
  have hrows : monthRows year store
      = ms.map fun m => (m, (inYear.filter fun r => r.caseDate.month == m).length) := by
    simp only [monthRows, hms, hinYear]
  have hfst : ((monthRows year store).map Prod.fst) = ms := by
    rw [hrows]
    simp [List.map_map, Function.comp_def]
  have hbound : ∀ p ∈ monthRows year store, 1 ≤ p.1 ∧ p.1 ≤ 12 := by
    intro p hp
    rw [hrows] at hp
    rcases List.mem_map.1 hp with ⟨m, hm, rfl⟩
    rcases List.mem_map.1 ((hms_mem m).1 hm) with ⟨r, hr, rfl⟩
    exact hval r (List.mem_filter.1 hr).1
  apply List.ext_getElem?
  intro i
  by_cases hi : i < 12
  · have hi' : i < (List.replicate 12 (0 : Nat)).length := by simp [hi]
    rw [fillMonthly, fill_getElem (monthRows year store) (List.replicate 12 0) i hi'
      (by simpa using hbound) (hfst ▸ hms_nodup)]
    rw [List.getElem?_map, List.getElem?_range hi]
    simp only [Option.map_some']
    congr 1
    rw [hrows, lookup_map_self]
    by_cases hmem : i + 1 ∈ ms
    · rw [if_pos hmem, Option.getD_some, hfilter (i + 1)]
    · rw [if_neg hmem, Option.getD_none]
      have hnil : (store.filter fun r => inCurrentYear year r && r.caseDate.month == i + 1)
          = [] := by
        rw [← hfilter (i + 1)]
        apply List.filter_eq_nil_iff.2
        intro r hr hmonth
        apply hmem
        rw [hms_mem]
        apply List.mem_map.2
        refine ⟨r, hr, ?_⟩
        simpa using hmonth
      rw [hnil]
      simp only [List.length_nil, List.get_eq_getElem, List.getElem_replicate]
  · have h1 : (fillMonthly (monthRows year store)).length ≤ i := by
      rw [fillMonthly, fill_length]
      simp
      omega
    have h2 : ((List.range 12).map fun i =>
        (store.filter fun r => inCurrentYear year r && r.caseDate.month == i + 1).length).length
          ≤ i := by
      simp
      omega
    rw [List.getElem?_eq_none h1, List.getElem?_eq_none h2]

theorem sum_map_add (l : List α) (f g : α → Nat) :
    (l.map fun x => f x + g x).sum = (l.map f).sum + (l.map g).sum := by
  induction l with
  | nil => rfl
  | cons a t ih =>
    simp only [List.map_cons, List.sum_cons, ih]
    omega

theorem sum_indicator_month (m : Nat) (h1 : 1 ≤ m) (h2 : m ≤ 12) :
    ((List.range 12).map fun i => if m == i + 1 then 1 else 0).sum = 1 := by
  interval_cases m <;> decide

/-- Summing the 12 per-month bucket counts recovers the number of
current-year records. -/
theorem sum_month_buckets (year : Nat) :
    ∀ l : List CyberCase, (∀ r ∈ l, 1 ≤ r.caseDate.month ∧ r.caseDate.month ≤ 12) →
      ((List.range 12).map fun i =>
          (l.filter fun r => inCurrentYear year r && r.caseDate.month == i + 1).length).sum
        = (l.filter (inCurrentYear year)).length := by
  intro l
  induction l with
  | nil =>
    intro _
    simp [List.sum_const_nat]
  | cons a t ih =>
    intro h
    have ha := h a (by simp)
    have ht : ∀ r ∈ t, 1 ≤ r.caseDate.month ∧ r.caseDate.month ≤ 12 :=
      fun r hr => h r (by simp [hr])
    have hmap : ((List.range 12).map fun i =>
        ((a :: t).filter fun r => inCurrentYear year r && r.caseDate.month == i + 1).length)
          = (List.range 12).map fun i =>
              (if inCurrentYear year a && a.caseDate.month == i + 1 then 1 else 0)
                + (t.filter fun r => inCurrentYear year r && r.caseDate.month == i + 1).length := by
      apply List.map_congr_left
      intro i _
      rw [List.filter_cons]
      split <;> simp <;> omega
    rw [hmap, sum_map_add, ih ht]
    by_cases hy : inCurrentYear year a
    · have hind : ((List.range 12).map fun i =>
          (if inCurrentYear year a && a.caseDate.month == i + 1 then 1 else 0)).sum = 1 := by
        have : ∀ i : Nat, (if inCurrentYear year a && a.caseDate.month == i + 1 then (1 : Nat) else 0)
            = if a.caseDate.month == i + 1 then 1 else 0 := by
          intro i
          simp [hy]
        calc ((List.range 12).map fun i =>
              (if inCurrentYear year a && a.caseDate.month == i + 1 then (1 : Nat) else 0)).sum
            = ((List.range 12).map fun i =>
                if a.caseDate.month == i + 1 then (1 : Nat) else 0).sum := by
              rw [List.map_congr_left fun i _ => this i]
          _ = 1 := sum_indicator_month a.caseDate.month ha.1 ha.2
      rw [hind, List.filter_cons_of_pos hy]
      simp [Nat.add_comm]
    · have hyb : inCurrentYear year a = false := by
        simpa using hy
      have hind : ((List.range 12).map fun i =>
          (if inCurrentYear year a && a.caseDate.month == i + 1 then (1 : Nat) else 0)).sum = 0 := by
        have : ∀ i : Nat, (if inCurrentYear year a && a.caseDate.month == i + 1 then (1 : Nat) else 0)
            = 0 := by
          intro i
          simp [hyb]
        rw [List.map_congr_left fun i _ => this i]
        simp [List.sum_const_nat]
      rw [hind, List.filter_cons_of_neg (by simp [hyb])]
      simp

/-- C4: `monthlyCases` has length exactly 12; entry `m - 1` counts the
records whose `caseDate` falls in calendar month `m` of the current year
(index 0 = January, …, index 11 = December; months with no records
appear as 0 through the same equation); and the 12 entries sum to the
number of current-year records. Date validity (months 1–12, guaranteed
by the `date` column type) is assumed. -/
theorem monthlyCases_histogram (userId : Str) (year : Nat) (store : List CyberCase)
    (hval : ∀ r ∈ store, 1 ≤ r.caseDate.month ∧ r.caseDate.month ≤ 12) :
    (getDashboardStats userId year store).monthlyCases.length = 12
      ∧ (∀ m, 1 ≤ m → m ≤ 12 →
          (getDashboardStats userId year store).monthlyCases[m - 1]?
            = some ((store.filter fun r =>
                inCurrentYear year r && r.caseDate.month == m).length))
      ∧ (getDashboardStats userId year store).monthlyCases.sum
          = (store.filter (inCurrentYear year)).length := by
  have hkey : (getDashboardStats userId year store).monthlyCases
      = (List.range 12).map fun i =>
          (store.filter fun r => inCurrentYear year r && r.caseDate.month == i + 1).length := by
    simp only [getDashboardStats]
    exact monthlyCases_eq_map year store hval
  refine ⟨?_, ?_, ?_⟩
  · rw [hkey]; simp
  · intro m h1 h2
    rw [hkey, List.getElem?_map, List.getElem?_range (by omega)]
    simp only [Option.map_some']
    congr 2
    rw [show m - 1 + 1 = m by omega]
  · rw [hkey]
    exact sum_month_buckets year store hval

theorem monthlyCases_histogram_witness :
    (∀ r ∈ [sampleCase, sampleCase2], 1 ≤ r.caseDate.month ∧ r.caseDate.month ≤ 12)
      ∧ ((getDashboardStats [117] 2026 [sampleCase, sampleCase2]).monthlyCases.length = 12
        ∧ (∀ m, 1 ≤ m → m ≤ 12 →
            (getDashboardStats [117] 2026 [sampleCase, sampleCase2]).monthlyCases[m - 1]?
              = some (([sampleCase, sampleCase2].filter fun r =>
                  inCurrentYear 2026 r && r.caseDate.month == m).length))
        ∧ (getDashboardStats [117] 2026 [sampleCase, sampleCase2]).monthlyCases.sum
            = ([sampleCase, sampleCase2].filter (inCurrentYear 2026)).length) :=
  ⟨by decide, monthlyCases_histogram [117] 2026 [sampleCase, sampleCase2] (by decide)⟩

/-- C5 (amended): `crimeTypeStats` has exactly one entry per distinct
`crimeType` value present in the data (whatever that value is), with
the correct per-type count, sorted by count descending. The query orders
only by count, so no tie-break by type name is guaranteed. -/
theorem crimeTypeStats_spec (userId : Str) (year : Nat) (store : List CyberCase) :
    (∀ t, (t ∈ (getDashboardStats userId year store).crimeTypeStats.map Prod.fst
        ↔ t ∈ store.map fun r => r.crimeType))
      ∧ ((getDashboardStats userId year store).crimeTypeStats.map Prod.fst).Nodup
      ∧ (∀ p ∈ (getDashboardStats userId year store).crimeTypeStats,
          p.2 = (store.filter fun r => r.crimeType == p.1).length)
      ∧ (getDashboardStats userId year store).crimeTypeStats.Pairwise
          (fun a b => b.2 ≤ a.2) := by
  have hstats : (getDashboardStats userId year store).crimeTypeStats
      = crimeTypeRows store := rfl
  have hbase : crimeTypeRows store
      = sortBy (fun a b => b.2 ≤ a.2)
          (((store.map fun r => r.crimeType).dedup).map
            fun t => (t, (store.filter fun r => r.crimeType == t).length)) := rfl
  set base := ((store.map fun r => r.crimeType).dedup).map
    fun t => (t, (store.filter fun r => r.crimeType == t).length) with hbasedef
  have hperm : List.Perm (crimeTypeRows store) base := by
    rw [hbase]
    exact sortBy_perm _ base
  have hfst : base.map Prod.fst = (store.map fun r => r.crimeType).dedup := by
    rw [hbasedef]
    simp [List.map_map, Function.comp_def]
  refine ⟨?_, ?_, ?_, ?_⟩
  · intro t
    rw [hstats, (hperm.map Prod.fst).mem_iff, hfst]
    exact List.mem_dedup
  · rw [hstats, (hperm.map Prod.fst).nodup_iff, hfst]
    exact List.nodup_dedup _
  · intro p hp
    rw [hstats] at hp
    rcases List.mem_map.1 (hperm.mem_iff.1 hp) with ⟨t, _, rfl⟩
    rfl
  · rw [hstats, hbase]
    have h := pairwise_sortBy (fun a b : Str × Nat => b.2 ≤ a.2)
      (fun x y => by
        rcases Nat.le_total y.2 x.2 with h | h
        · exact Or.inl (by simpa using h)
        · exact Or.inr (by simpa using h))
      (fun x y z hxy hyz => by
        simp only [decide_eq_true_eq] at hxy hyz ⊢
        omega) base
    exact h.imp fun hab => by simpa using hab

/-- C5 counterexample: with two crime types `b` (code 98) and `a`
(code 97) of equal count 1, where the `b` record precedes the `a`
record, the computed statistics are not ordered with ties broken by
type name ascending — the specification's claimed tie-break does not
hold. -/
theorem crimeTypeStats_spec_cex :
    ¬ (getDashboardStats [117] 2026 [tieCaseB, tieCaseA]).crimeTypeStats.Pairwise
        specStatsOrder := by
  decide

/-- C6: the dashboard totals — `totalCases` counts all records,
`totalAmount` sums `stolenAmount` over all records and is exactly 0 for
an empty store, `activeCases` counts records with status `Pendiente` or
`En proceso`, and `resolvedCases` counts records with status
`Completado`. -/
theorem dashboardStats_totals (userId : Str) (year : Nat) (store : List CyberCase) :
    (getDashboardStats userId year store).totalCases = store.length
      ∧ (getDashboardStats userId year store).totalAmount
          = (store.map fun r => r.stolenAmount).sum
      ∧ (getDashboardStats userId year ([] : List CyberCase)).totalAmount = 0
      ∧ (getDashboardStats userId year store).activeCases
          = (store.filter fun r => r.investigationStatus == pendienteStr
              || r.investigationStatus == enProcesoStr).length
      ∧ (getDashboardStats userId year store).resolvedCases
          = (store.filter fun r => r.investigationStatus == completadoStr).length :=
  ⟨rfl, rfl, rfl, rfl, rfl⟩

/-- C7: an update changes exactly the supplied fields of the addressed
record, always refreshes `updatedAt`, and leaves `id` and `createdBy`
(and `createdAt`) unchanged even when the raw request body attempts to
set them — zod validation drops those keys, so the attempt is silently
ignored, not an error. -/
theorem updateCase_frame (store : List CyberCase) (id : Str) (body : RawUpdateBody)
    (userId : Str) (now : Nat) (c : CyberCase)
    (hfind : store.find? (fun r => r.id == id) = some c) :
    ∃ c', (updateCyberCase store id (parseUpdateBody body) userId now).1 = some c'
      ∧ c'.id = c.id
      ∧ c'.createdBy = c.createdBy
      ∧ c'.createdAt = c.createdAt
      ∧ c'.updatedAt = now
      ∧ c'.caseDate = body.caseDate.getD c.caseDate
      ∧ c'.expedientNumber = body.expedientNumber.getD c.expedientNumber
      ∧ c'.crimeType = body.crimeType.getD c.crimeType
      ∧ c'.senderAccountData = body.senderAccountData.getD c.senderAccountData
      ∧ c'.victim = body.victim.getD c.victim
      ∧ c'.receiverAccountData = body.receiverAccountData.getD c.receiverAccountData
      ∧ c'.receiverAccountResearch
          = body.receiverAccountResearch.getD c.receiverAccountResearch
      ∧ c'.investigationStatus = body.investigationStatus.getD c.investigationStatus
      ∧ c'.stolenAmount = body.stolenAmount.getD c.stolenAmount
      ∧ c'.observations = body.observations.getD c.observations := by
  refine ⟨applyPatch c (parseUpdateBody body) now, ?_,
    rfl, rfl, rfl, rfl, rfl, rfl, rfl, rfl, rfl, rfl, rfl, rfl, rfl, rfl⟩
  simp [updateCyberCase, hfind]

theorem updateCase_frame_witness :
    ([sampleCase].find? (fun r => r.id == [49]) = some sampleCase)
      ∧ ∃ c', (updateCyberCase [sampleCase] [49] (parseUpdateBody sneakyBody) [122] 7).1
            = some c'
        ∧ c'.id = sampleCase.id
        ∧ c'.createdBy = sampleCase.createdBy
        ∧ c'.createdAt = sampleCase.createdAt
        ∧ c'.updatedAt = 7
        ∧ c'.caseDate = sneakyBody.caseDate.getD sampleCase.caseDate
        ∧ c'.expedientNumber = sneakyBody.expedientNumber.getD sampleCase.expedientNumber
        ∧ c'.crimeType = sneakyBody.crimeType.getD sampleCase.crimeType
        ∧ c'.senderAccountData = sneakyBody.senderAccountData.getD sampleCase.senderAccountData
        ∧ c'.victim = sneakyBody.victim.getD sampleCase.victim
        ∧ c'.receiverAccountData
            = sneakyBody.receiverAccountData.getD sampleCase.receiverAccountData
        ∧ c'.receiverAccountResearch
            = sneakyBody.receiverAccountResearch.getD sampleCase.receiverAccountResearch
        ∧ c'.investigationStatus
            = sneakyBody.investigationStatus.getD sampleCase.investigationStatus
        ∧ c'.stolenAmount = sneakyBody.stolenAmount.getD sampleCase.stolenAmount
        ∧ c'.observations = sneakyBody.observations.getD sampleCase.observations :=
  ⟨by decide, updateCase_frame [sampleCase] [49] sneakyBody [122] 7 sampleCase (by decide)⟩

/-- C8 (amended): updating a nonexistent id does not fail with
NotFoundError — the `UPDATE` matches no row, `RETURNING` is empty, and
the route answers with a 200 success carrying an empty body
(`res.json(undefined)`). -/
theorem updateCase_missing_id (store : List CyberCase) (id : Str) (body : RawUpdateBody)
    (userId : Str) (now : Nat)
    (hnone : store.find? (fun r => r.id == id) = none) :
    (routeUpdateCase store id body userId now).1 = UpdateResponse.okEmpty
      ∧ (routeUpdateCase store id body userId now).1 ≠ UpdateResponse.notFound := by
  have h : (routeUpdateCase store id body userId now).1 = UpdateResponse.okEmpty := by
    simp [routeUpdateCase, updateCyberCase, hnone]
  exact ⟨h, by rw [h]; simp⟩

theorem updateCase_missing_id_witness :
    ([sampleCase].find? (fun r => r.id == [57]) = none)
      ∧ ((routeUpdateCase [sampleCase] [57] sneakyBody [117] 5).1 = UpdateResponse.okEmpty
        ∧ (routeUpdateCase [sampleCase] [57] sneakyBody [117] 5).1
            ≠ UpdateResponse.notFound) :=
  ⟨by decide, updateCase_missing_id [sampleCase] [57] sneakyBody [117] 5 (by decide)⟩

/-- C8 counterexample: on an empty store, the update route reports a
success with an empty body, not NotFoundError, refuting the claim that
it "fails with NotFoundError" and "does not report success". -/
theorem updateCase_missing_id_cex :
    (routeUpdateCase [] [57] sneakyBody [117] 5).1 = UpdateResponse.okEmpty
      ∧ UpdateResponse.okEmpty ≠ UpdateResponse.notFound := by
  decide

/-- C9 (amended): `limit = 0` is neither rejected nor coerced to 1: the
query silently executes with a zero page size, returning an empty page
together with the correct total count. -/
theorem listCases_limit_zero (q : CaseQueryParams) (store : List CyberCase)
    (h : q.limit = some 0) :
    (getCyberCases q store).cases = []
      ∧ (getCyberCases q store).total = (store.filter (whereClause q)).length := by
  refine ⟨?_, rfl⟩
  simp [getCyberCases, h]

theorem listCases_limit_zero_witness :
    limitZeroQuery.limit = some 0
      ∧ ((getCyberCases limitZeroQuery [sampleCase, sampleCase2]).cases = []
        ∧ (getCyberCases limitZeroQuery [sampleCase, sampleCase2]).total
            = ([sampleCase, sampleCase2].filter (whereClause limitZeroQuery)).length) :=
  ⟨rfl, listCases_limit_zero limitZeroQuery [sampleCase, sampleCase2] rfl⟩

/-- C9 counterexample: with one stored record, `limit = 0` executes
silently with a zero page size (empty page, total 1, no error), whereas
a limit coerced to a minimum of 1 would return the record. -/
theorem listCases_limit_zero_cex :
    (getCyberCases limitZeroQuery [sampleCase]).cases = []
      ∧ (getCyberCases limitZeroQuery [sampleCase]).total = 1
      ∧ (getCyberCases limitOneQuery [sampleCase]).cases = [sampleCase] := by
  decide

/-- C10: `getDashboardStats` ignores its caller-identity parameter —
any two callers receive identical statistics over the full table. -/
theorem dashboardStats_callerId_independent (u1 u2 : Str) (year : Nat)
    (store : List CyberCase) :
    getDashboardStats u1 year store = getDashboardStats u2 year store := rfl

end CyberCrime
